import Mathlib

/-!
# Verification of the `domaininfo` Go package

Shallow embedding of `main.go` from `ByteBreach/domaininfo`.

The package resolves a domain to an IP address and enriches it with
geolocation data fetched from external providers, falling back across
three providers in a fixed order.

Modelling conventions:
* Go strings are Lean `String`s; the character-level work is done on
  `List Char` (via `String.data` / `String.mk`) so that everything
  reduces in the kernel.
* Go's `(value, error)` pairs are kept as explicit pairs where the claims
  are about the pair shape (`getIPLocation`, `getIPAddress`), and as
  `Except String` where the Go function can only return one of the two.
* `float64` coordinate fields are modelled as `Rat` (exact decimal
  idealisation of the parse).
* Network effects (DNS lookups, HTTP fetches) are modelled by an explicit
  environment: each outbound call's outcome is a value the functions
  consume.  The generic `json.Unmarshal` step of an HTTP body is part of
  that outcome (an `Except` of the decoded value), since the adapters'
  own logic starts after decoding.
-/

namespace DomainInfoPkg

/-- `true` on the characters matched by the regex classes `[a-zA-Z]`/`[0-9]`
combined, i.e. Go's `[a-zA-Z0-9]`. -/
def isAlnum (c : Char) : Bool := c.isAlpha || c.isDigit

/-- The regex class `[a-zA-Z0-9-]`: an alphanumeric or a hyphen. -/
def isLabelChar (c : Char) : Bool := isAlnum c || c == '-'

/-- Splits a character list at every occurrence of `sep`, keeping empty
pieces, like Go's `strings.Split` (and like splitting the regex
alternatives at the separator). -/
def splitOnChar (sep : Char) : List Char → List (List Char)
  | [] => [[]]
  | c :: rest =>
    if c = sep then [] :: splitOnChar sep rest
    else
      match splitOnChar sep rest with
      | [] => [[c]]
      | h :: t => (c :: h) :: t

/-- Joins pieces back with `sep` between them; inverse of `splitOnChar`. -/
def joinChar (sep : Char) : List (List Char) → List Char
  | [] => []
  | [l] => l
  | l :: l2 :: ls => l ++ sep :: joinChar sep (l2 :: ls)

/-- Go's `strings.TrimSpace` on the character list: drop whitespace from
both ends (ASCII whitespace model of Go's Unicode white space). -/
def trimSpaceList (l : List Char) : List Char :=
  ((l.dropWhile Char.isWhitespace).reverse.dropWhile Char.isWhitespace).reverse

/-- Go's `strings.HasPrefix s p` / the test whether `s` starts with `p`. -/
def hasPfx (s p : String) : Bool := p.data.isPrefixOf s.data

/-! ## Data model (`main.go` lines 14–28)

`LocationDetails` mirrors the Go struct; the `float64` coordinates are
modelled as `Rat`.  `DomainInfo.Location` is a Go pointer
(`*LocationDetails`), modelled as `Option LocationDetails`. -/

structure LocationDetails where
  IP : String
  City : String
  Region : String
  Country : String
  Latitude : Rat
  Longitude : Rat
  deriving Repr, DecidableEq

/-- The zero value of `LocationDetails` (Go's `LocationDetails{}`). -/
def LocationDetails.zero : LocationDetails :=
  ⟨"", "", "", "", 0, 0⟩

structure DomainInfo where
  OriginalInput : String
  CleanDomain : String
  IPAddress : String
  Location : Option LocationDetails
  deriving Repr, DecidableEq

/-! ## Input normalizer (`cleanDomainInput`, lines 59–69)

`url.Parse`/`Hostname` for inputs that begin with an HTTP(S) scheme is
beyond the character-level model, so it is an oracle parameter `host`:
`none` models `url.Parse` returning a non-nil error (in which case the Go
code keeps the input unchanged), `some h` models a successful parse with
`Hostname() = h`.  The rest is translated literally: `strings.TrimPrefix`
with `"www."` (drop 4 characters when the literal prefix is present),
then `strings.TrimSpace`. -/

def cleanDomainInput (host : String → Option String) (input : String) :
    String :=
  let input1 :=
    if hasPfx input "http://" || hasPfx input "https://" then
      match host input with
      | some h => h
      | none => input
    else input
  let input2 :=
    if hasPfx input1 "www." then String.mk (input1.data.drop 4) else input1
  String.mk (trimSpaceList input2.data)

/-! ## Format validation (`isValidDomainFormat`, lines 71–74)

The Go code matches the anchored regex

  `^[a-zA-Z0-9]([a-zA-Z0-9-]{0,61}[a-zA-Z0-9])?(\.[a-zA-Z]{2,})+$`

Since neither the first group nor the repeated `\.[a-zA-Z]{2,}` group can
contain a dot, a string matches iff, split at the dots, its first piece
matches `[a-zA-Z0-9]([a-zA-Z0-9-]{0,61}[a-zA-Z0-9])?` and it has at
least one further piece, each matching `[a-zA-Z]{2,}`. -/

/-- The regex `[a-zA-Z0-9]([a-zA-Z0-9-]{0,61}[a-zA-Z0-9])?`: a single
alphanumeric, or an alphanumeric, then up to 61 alphanumerics/hyphens,
then an alphanumeric (total length 1–63, ends alphanumeric). -/
def isFirstLabel : List Char → Bool
  | [] => false
  | c :: rest =>
    if rest.isEmpty then isAlnum c
    else
      isAlnum c && rest.dropLast.all isLabelChar &&
        decide (rest.dropLast.length ≤ 61) && isAlnum (rest.getLastD '-')

/-- The regex `[a-zA-Z]{2,}`: at least two characters, all alphabetic. -/
def isTailLabel (l : List Char) : Bool :=
  decide (2 ≤ l.length) && l.all Char.isAlpha

def isValidDomainFormat (domain : String) : Bool :=
  match splitOnChar '.' domain.data with
  | [] => false
  | first :: rest =>
    isFirstLabel first && !rest.isEmpty && rest.all isTailLabel



/-- Grammar of the first label, following the spec's words: one
alphanumeric character, or an alphanumeric, a middle of at most 61
alphanumerics/hyphens, and a final alphanumeric (so 1–63 characters,
neither starting nor ending with a hyphen). -/
def specFirstLabel (l : List Char) : Prop :=
  (∃ c, l = [c] ∧ isAlnum c = true) ∨
  (∃ c mid d, l = c :: mid ++ [d] ∧ isAlnum c = true ∧ isAlnum d = true ∧
    mid.length ≤ 61 ∧ ∀ x ∈ mid, isLabelChar x = true)

/-- Grammar of every label after the first: at least two characters,
all alphabetic. -/
def specTailLabel (l : List Char) : Prop :=
  2 ≤ l.length ∧ ∀ c ∈ l, c.isAlpha = true

/-! ## Resolver (`getIPAddress` lines 76–82, `checkDNSResolution` lines 84–87)

`net.LookupIP` is an effect; its outcome is a value of type
`Except String (List String)`: `.error e` models a non-nil error `e`,
`.ok ips` a nil error with the address list `ips` (each `net.IP` already
rendered by `.String()`).  Both functions consume that outcome; in the
environment-based `ValidateDomain` below the two calls see the same
outcome (the network is assumed stable within one query). -/

/-- Line 76–82.  Go returns the pair `(string, error)`; the pair is kept
because on `err == nil && len(ips) == 0` the code returns `("", err)`
with `err` still nil. -/
def getIPAddress (lookup : Except String (List String)) :
    String × Option String :=
  match lookup with
  | .error e => ("", some e)
  | .ok ips => if ips.length = 0 then ("", none) else (ips.headD "", none)

/-- Line 84–87: `true` iff `net.LookupIP` returned a nil error
(the address list, even when empty, is not inspected). -/
def checkDNSResolution (lookup : Except String (List String)) : Bool :=
  match lookup with
  | .ok _ => true
  | .error _ => false

/-! ## Fallback orchestrator (`getIPLocation`, lines 89–104)

Each provider call returns Go's pair `(*LocationDetails, error)`,
modelled as `ProviderResult`.  The loop body accepts the first result
with `err == nil && location != nil` and returns it unchanged; after the
loop the aggregate error is returned.  `getIPLocationLoop` additionally
counts how many providers the loop invoked (one per iteration entered),
so that "providers after the first success are never invoked" is a
statement about the model. -/

structure ProviderResult where
  location : Option LocationDetails
  err : Option String
  deriving Repr, DecidableEq

/-- The loop's acceptance test `err == nil && location != nil`. -/
def providerSucceeded (r : ProviderResult) : Bool :=
  r.err.isNone && r.location.isSome

/-- The message of line 103. -/
def allProvidersFailedMsg : String :=
  "could not fetch location from any provider"

/-- The `for` loop of lines 96–101 plus the return of line 103, paired
with the number of providers invoked. -/
def getIPLocationLoop : List ProviderResult → ProviderResult × Nat
  | [] => (⟨none, some allProvidersFailedMsg⟩, 0)
  | r :: rest =>
    if providerSucceeded r then (⟨r.location, none⟩, 1)
    else ((getIPLocationLoop rest).1, (getIPLocationLoop rest).2 + 1)

/-- `getIPLocation` over an explicit list of provider call results. -/
def getIPLocation (results : List ProviderResult) : ProviderResult :=
  (getIPLocationLoop results).1

/-- Number of providers the loop invokes. -/
def providersInvoked (results : List ProviderResult) : Nat :=
  (getIPLocationLoop results).2

/-! ## Provider adapters (lines 106–192)

Each adapter does `http.Get`, `io.ReadAll`, `json.Unmarshal`, then its
own validation.  The first three steps are effects; their combined
outcome is a `HTTPFetch α`:
* `transportError e`: `http.Get` returned error `e`;
* `readError e`: `io.ReadAll` returned error `e`;
* `response status parsed`: a response with the given HTTP status code
  whose body decodes (via `json.Unmarshal`) to `parsed` — `.error e` when
  unmarshalling fails, `.ok v` with the decoded value otherwise.

The status code is carried so that it is visible that the adapters never
look at it: `resp.StatusCode` is not read anywhere in the Go code. -/

inductive HTTPFetch (α : Type) where
  | transportError (e : String)
  | readError (e : String)
  | response (status : Nat) (parsed : Except String α)
  deriving Repr

/-- The message of lines 125, 163 and 188. -/
def noLocationDataMsg : String := "no location data"

/-- `getIPAPILocation` (lines 106–129): unmarshal straight into
`LocationDetails`, reject when both city and country are empty. -/
def getIPAPILocation (fetch : HTTPFetch LocationDetails) : ProviderResult :=
  match fetch with
  | .transportError e => ⟨none, some e⟩
  | .readError e => ⟨none, some e⟩
  | .response _ (.error e) => ⟨none, some e⟩
  | .response _ (.ok location) =>
    if location.City = "" && location.Country = "" then
      ⟨none, some noLocationDataMsg⟩
    else ⟨some location, none⟩

/-- The decoded form of ipinfo.io's `map[string]interface{}` response,
restricted to the four keys the Go code reads with
`data[k].(string)`: `none` models a key that is absent or whose value is
not a string (the type assertion's `ok` is false and the zero value `""`
is kept). -/
structure IPInfoData where
  loc : Option String
  city : Option String
  region : Option String
  country : Option String
  deriving Repr, DecidableEq

/-- Value of a digit string, most significant digit first. -/
def digitsVal (l : List Char) : Nat :=
  l.foldl (fun acc c => acc * 10 + (c.toNat - 48)) 0

/-- Go's `fmt.Sscanf(s, "%f", &x)` on a plain decimal string: optional
sign, digits, optional fractional part (no exponent forms, which never
occur in the providers' coordinate strings).  Returns `none` when the
scan fails, in which case the Go variable keeps its zero value.  The
value `±(i + f/10^k)` is built as one `mkRat` so that it reduces in the
kernel. -/
def parseDecimal (l : List Char) : Option Rat :=
  let signRest : Int × List Char :=
    match l with
    | '-' :: r => (-1, r)
    | '+' :: r => (1, r)
    | r => (1, r)
  let sign := signRest.1
  let rest := signRest.2
  let intPart := rest.takeWhile Char.isDigit
  let rest2 := rest.dropWhile Char.isDigit
  let intVal : Nat := digitsVal intPart
  match rest2 with
  | [] => if intPart.isEmpty then none else some (mkRat (sign * intVal) 1)
  | '.' :: fracRest =>
    let fracPart := fracRest.takeWhile Char.isDigit
    let rest3 := fracRest.dropWhile Char.isDigit
    let fracVal : Nat := digitsVal fracPart
    if rest3.isEmpty && !(intPart.isEmpty && fracPart.isEmpty) then
      some (mkRat (sign * (intVal * 10 ^ fracPart.length + fracVal))
        (10 ^ fracPart.length))
    else none
  | _ => none

/-- The scanned value, or the zero value when the scan fails. -/
def sscanfFloat (s : String) : Rat := (parseDecimal s.data).getD 0

/-- `getIPInfoLocation` (lines 131–167): build a `LocationDetails` from
the decoded map — split the `loc` string at `","` and, when it has
exactly two pieces, scan them as the two coordinates; take the `city`,
`region` and `country` strings (zero value `""` when absent); reject
when both city and country are empty. -/
def getIPInfoLocation (fetch : HTTPFetch IPInfoData) : ProviderResult :=
  match fetch with
  | .transportError e => ⟨none, some e⟩
  | .readError e => ⟨none, some e⟩
  | .response _ (.error e) => ⟨none, some e⟩
  | .response _ (.ok data) =>
    let coordsPair : Rat × Rat :=
      match data.loc with
      | some s =>
        let coords := splitOnChar ',' s.data
        if coords.length = 2 then
          (sscanfFloat (String.mk (coords.headD [])),
           sscanfFloat (String.mk ((coords.drop 1).headD [])))
        else (0, 0)
      | none => (0, 0)
    let location : LocationDetails :=
      { IP := "", City := (data.city.getD ""), Region := (data.region.getD ""),
        Country := (data.country.getD ""),
        Latitude := coordsPair.1, Longitude := coordsPair.2 }
    if location.City = "" && location.Country = "" then
      ⟨none, some noLocationDataMsg⟩
    else ⟨some location, none⟩

/-- `getFreeGeoIPLocation` (lines 169–192): same adapter logic as
`getIPAPILocation` (only the endpoint URL differs in the Go code). -/
def getFreeGeoIPLocation (fetch : HTTPFetch LocationDetails) : ProviderResult :=
  match fetch with
  | .transportError e => ⟨none, some e⟩
  | .readError e => ⟨none, some e⟩
  | .response _ (.error e) => ⟨none, some e⟩
  | .response _ (.ok location) =>
    if location.City = "" && location.Country = "" then
      ⟨none, some noLocationDataMsg⟩
    else ⟨some location, none⟩

/-- The fixed provider list of lines 90–94, in its priority order,
applied to the three fetch outcomes. -/
def getIPLocationFull (a : HTTPFetch LocationDetails)
    (b : HTTPFetch IPInfoData) (c : HTTPFetch LocationDetails) :
    ProviderResult :=
  getIPLocation
    [getIPAPILocation a, getIPInfoLocation b, getFreeGeoIPLocation c]

/-! ## Public entry point (`ValidateDomain`, lines 30–57)

The environment collects the outcome of every outbound call one query
can make: the URL-host oracle, the DNS lookup outcome (used by both
`checkDNSResolution` and `getIPAddress`), and the three providers'
fetch outcomes. -/

structure Env where
  host : String → Option String
  lookup : Except String (List String)
  ipapiFetch : HTTPFetch LocationDetails
  ipinfoFetch : HTTPFetch IPInfoData
  freegeoipFetch : HTTPFetch LocationDetails

def ValidateDomain (env : Env) (input : String) : Except String DomainInfo :=
  if !isValidDomainFormat (cleanDomainInput env.host input) then
    .error "invalid domain format"
  else if !checkDNSResolution env.lookup then
    .error "cannot resolve domain"
  else
    match (getIPAddress env.lookup).2 with
    | some e => .error ("unable to resolve IP: " ++ e)
    | none =>
      match (getIPLocationFull env.ipapiFetch env.ipinfoFetch
          env.freegeoipFetch).err with
      | some e => .error ("unable to fetch location: " ++ e)
      | none =>
        .ok { OriginalInput := input,
              CleanDomain := cleanDomainInput env.host input,
              IPAddress := (getIPAddress env.lookup).1,
              Location := (getIPLocationFull env.ipapiFetch env.ipinfoFetch
                env.freegeoipFetch).location }

/-! ## Concrete test fixtures shared by the witnesses -/

instance : DecidableEq (Except String DomainInfo) := fun a b =>
  match a, b with
  | .error e, .error f =>
    if h : e = f then .isTrue (by rw [h])
    else .isFalse (fun hh => by cases hh; exact h rfl)
  | .error _, .ok _ => .isFalse (fun hh => by cases hh)
  | .ok _, .error _ => .isFalse (fun hh => by cases hh)
  | .ok x, .ok y =>
    if h : x = y then .isTrue (by rw [h])
    else .isFalse (fun hh => by cases hh; exact h rfl)

/-- The location of the spec's Paris example. -/
def parisLoc : LocationDetails :=
  { IP := "", City := "Paris", Region := "", Country := "France",
    Latitude := 0, Longitude := 0 }

/-- An environment in which the DNS lookup succeeds with an empty address
list and the first provider succeeds. -/
def envEmptyDNS : Env :=
  { host := fun _ => none,
    lookup := .ok [],
    ipapiFetch := .response 200 (.ok parisLoc),
    ipinfoFetch := .transportError "dial tcp: timeout",
    freegeoipFetch := .transportError "dial tcp: timeout" }

/-- An environment in which every provider call fails at the transport. -/
def envAllFail : Env :=
  { host := fun _ => none,
    lookup := .ok ["93.184.216.34"],
    ipapiFetch := .transportError "dial tcp: refused",
    ipinfoFetch := .transportError "dial tcp: refused",
    freegeoipFetch := .transportError "dial tcp: refused" }

/-- An environment in which DNS and the first provider succeed. -/
def envAllGood : Env :=
  { host := fun _ => none,
    lookup := .ok ["93.184.216.34"],
    ipapiFetch := .response 200 (.ok parisLoc),
    ipinfoFetch := .transportError "dial tcp: timeout",
    freegeoipFetch := .transportError "dial tcp: timeout" }

/-- The ipinfo.io response of the spec's coordinate example. -/
def ipinfoParisData : IPInfoData :=
  { loc := some "48.85,2.35", city := some "Paris", region := none,
    country := some "FR" }

/-- The record `getIPInfoLocation` builds from `ipinfoParisData`. -/
def ipinfoParisLoc : LocationDetails :=
  { IP := "", City := "Paris", Region := "", Country := "FR",
    Latitude := mkRat 4885 100, Longitude := mkRat 235 100 }

/-! ## Splitting / joining lemmas -/

theorem splitOnChar_ne_nil (sep : Char) (l : List Char) :
    splitOnChar sep l ≠ [] := by
  cases l with
  | nil => simp [splitOnChar]
  | cons c rest =>
    simp only [splitOnChar]
    split
    · simp
    · split <;> simp

theorem joinChar_splitOnChar (sep : Char) (l : List Char) :
    joinChar sep (splitOnChar sep l) = l := by
  induction l with
  | nil => rfl
  | cons c rest ih =>
    simp only [splitOnChar]
    split
    · rename_i hc
      rcases hs : splitOnChar sep rest with _ | ⟨h, t⟩
      · exact absurd hs (splitOnChar_ne_nil sep rest)
      · rw [hs] at ih
        simp only [joinChar, List.nil_append]
        rw [← ih, hc]
    · rcases hs : splitOnChar sep rest with _ | ⟨h, t⟩
      · exact absurd hs (splitOnChar_ne_nil sep rest)
      · rw [hs] at ih
        cases t with
        | nil => simp only [joinChar] at ih ⊢; rw [ih]
        | cons t1 t2 =>
          simp only [joinChar, List.cons_append] at ih ⊢
          rw [ih]

theorem splitOnChar_no_sep (sep : Char) (l : List Char) (h : sep ∉ l) :
    splitOnChar sep l = [l] := by
  induction l with
  | nil => rfl
  | cons c rest ih =>
    simp only [List.mem_cons, not_or] at h
    have hcs : ¬ c = sep := fun hc => h.1 hc.symm
    simp only [splitOnChar, if_neg hcs, ih h.2]

theorem splitOnChar_append_sep (sep : Char) (p rest : List Char)
    (h : sep ∉ p) :
    splitOnChar sep (p ++ sep :: rest) = p :: splitOnChar sep rest := by
  induction p with
  | nil => simp [splitOnChar]
  | cons c p' ih =>
    simp only [List.mem_cons, not_or] at h
    have hcs : ¬ c = sep := fun hc => h.1 hc.symm
    simp only [List.cons_append, splitOnChar, if_neg hcs]
    rw [show p'.append (sep :: rest) = p' ++ sep :: rest from rfl, ih h.2]

/-- `splitOnChar` of a join of sep-free nonempty piece list recovers it. -/
theorem splitOnChar_joinChar (sep : Char) (ls : List (List Char))
    (hne : ls ≠ []) (h : ∀ p ∈ ls, sep ∉ p) :
    splitOnChar sep (joinChar sep ls) = ls := by
  induction ls with
  | nil => exact absurd rfl hne
  | cons l ls' ih =>
    cases ls' with
    | nil =>
      simp only [joinChar]
      exact splitOnChar_no_sep sep l (h l (List.mem_cons_self l []))
    | cons l2 ls'' =>
      simp only [joinChar]
      rw [splitOnChar_append_sep sep l _ (h l (List.mem_cons_self l _))]
      congr 1
      exact ih (by simp) (fun p hp => h p (List.mem_cons_of_mem l hp))

/-! ## Helper lemmas -/

/-- On success the orchestrator's location is one of the providers'. -/
theorem getIPLocation_location_mem (results : List ProviderResult)
    (r : LocationDetails)
    (h : (getIPLocation results).location = some r) :
    ∃ q ∈ results, q.location = some r := by
  induction results with
  | nil => simp [getIPLocation, getIPLocationLoop] at h
  | cons q qs ih =>
    simp only [getIPLocation, getIPLocationLoop] at h
    by_cases hq : providerSucceeded q = true
    · rw [if_pos hq] at h
      exact ⟨q, List.mem_cons_self q qs, h⟩
    · rw [if_neg hq] at h
      obtain ⟨p, hp, hpl⟩ := ih h
      exact ⟨p, List.mem_cons_of_mem q hp, hpl⟩

/-- The orchestrator's result always carries a location or an error. -/
theorem getIPLocation_some_or_err (results : List ProviderResult) :
    (getIPLocation results).location.isSome = true ∨
    (getIPLocation results).err.isSome = true := by
  induction results with
  | nil => right; rfl
  | cons q qs ih =>
    simp only [getIPLocation, getIPLocationLoop]
    by_cases hq : providerSucceeded q = true
    · rw [if_pos hq]
      left
      have := hq
      unfold providerSucceeded at this
      exact (Bool.and_eq_true _ _ |>.mp this).2
    · rw [if_neg hq]
      exact ih

/-! ## Claims -/

/-- C1: for every sequence of provider outcomes, the fallback
orchestrator invokes the adapters in their fixed priority order and
returns the result of the first adapter that succeeds (err-free,
non-nil location) exactly as that adapter produced it, invoking only
the providers up to and including that first success — providers after
it are never invoked — and merging nothing across providers. -/
theorem getIPLocation_first_success (pre post : List ProviderResult)
    (r : ProviderResult)
    (hpre : ∀ q ∈ pre, providerSucceeded q = false)
    (hr : providerSucceeded r = true) :
    getIPLocation (pre ++ r :: post) = ⟨r.location, none⟩ ∧
    providersInvoked (pre ++ r :: post) = pre.length + 1 := by
  induction pre with
  | nil =>
    simp [getIPLocation, providersInvoked, getIPLocationLoop, hr]
  | cons q qs ih =>
    have hq : providerSucceeded q = false := hpre q (List.mem_cons_self q qs)
    have ih' := ih (fun p hp => hpre p (List.mem_cons_of_mem q hp))
    refine ⟨?_, ?_⟩
    · have hstep : getIPLocation ((q :: qs) ++ r :: post) =
          getIPLocation (qs ++ r :: post) := by
        simp [getIPLocation, getIPLocationLoop, hq]
      rw [hstep, ih'.1]
    · have hstep : providersInvoked ((q :: qs) ++ r :: post) =
          providersInvoked (qs ++ r :: post) + 1 := by
        simp [providersInvoked, getIPLocationLoop, hq]
      rw [hstep, ih'.2, List.length_cons]

/-- C1 witness: with the fixed adapter list, the first two adapters
failing and the third returning the Paris record, the orchestrator
returns exactly the third result after invoking all three providers. -/
theorem getIPLocation_first_success_witness :
    getIPLocation
      [getIPAPILocation (.transportError "dial tcp: refused"),
       getIPInfoLocation (.response 200 (.error "unexpected end of JSON input")),
       getFreeGeoIPLocation (.response 200 (.ok parisLoc))] =
      ⟨some parisLoc, none⟩ ∧
    providersInvoked
      [getIPAPILocation (.transportError "dial tcp: refused"),
       getIPInfoLocation (.response 200 (.error "unexpected end of JSON input")),
       getFreeGeoIPLocation (.response 200 (.ok parisLoc))] = 3 := by
  have h := getIPLocation_first_success
    [getIPAPILocation (.transportError "dial tcp: refused"),
     getIPInfoLocation (.response 200 (.error "unexpected end of JSON input"))]
    [] (getFreeGeoIPLocation (.response 200 (.ok parisLoc)))
    (by decide) (by decide)
  exact ⟨h.1, h.2⟩

/-- C2: if every adapter fails, `getIPLocation` fails with the single
aggregate error message, and `ValidateDomain` returns an error — no
`DomainInfo` record is constructed. -/
theorem ValidateDomain_all_providers_fail (env : Env) (input : String)
    (h1 : providerSucceeded (getIPAPILocation env.ipapiFetch) = false)
    (h2 : providerSucceeded (getIPInfoLocation env.ipinfoFetch) = false)
    (h3 : providerSucceeded (getFreeGeoIPLocation env.freegeoipFetch) = false) :
    getIPLocationFull env.ipapiFetch env.ipinfoFetch env.freegeoipFetch =
      ⟨none, some allProvidersFailedMsg⟩ ∧
    ∃ msg, ValidateDomain env input = .error msg := by
  have hloc : getIPLocationFull env.ipapiFetch env.ipinfoFetch
      env.freegeoipFetch = ⟨none, some allProvidersFailedMsg⟩ := by
    simp [getIPLocationFull, getIPLocation, getIPLocationLoop, h1, h2, h3]
  refine ⟨hloc, ?_⟩
  unfold ValidateDomain
  by_cases hv : (!isValidDomainFormat (cleanDomainInput env.host input)) = true
  · rw [if_pos hv]; exact ⟨_, rfl⟩
  · rw [if_neg hv]
    by_cases hd : (!checkDNSResolution env.lookup) = true
    · rw [if_pos hd]; exact ⟨_, rfl⟩
    · rw [if_neg hd]
      cases hip : (getIPAddress env.lookup).2 with
      | some e => simp only [hip]; exact ⟨_, rfl⟩
      | none => simp only [hip, hloc]; exact ⟨_, rfl⟩

/-- C2 witness: with all three providers failing at the transport, the
orchestrator yields the aggregate error and `ValidateDomain` errors. -/
theorem ValidateDomain_all_providers_fail_witness :
    getIPLocationFull envAllFail.ipapiFetch envAllFail.ipinfoFetch
      envAllFail.freegeoipFetch = ⟨none, some allProvidersFailedMsg⟩ ∧
    ∃ msg, ValidateDomain envAllFail "example.com" = .error msg :=
  ValidateDomain_all_providers_fail envAllFail "example.com" rfl rfl rfl

/-! ## C3: the acceptance language of `isValidDomainFormat` -/

theorem isTailLabel_iff (l : List Char) :
    isTailLabel l = true ↔ specTailLabel l := by
  simp [isTailLabel, specTailLabel, List.all_eq_true]

theorem isFirstLabel_iff (l : List Char) :
    isFirstLabel l = true ↔ specFirstLabel l := by
  cases l with
  | nil =>
    simp only [isFirstLabel, specFirstLabel]
    constructor
    · intro h; exact absurd h (by simp)
    · rintro (⟨c, hc, _⟩ | ⟨c, mid, d, hc, _⟩) <;> simp at hc
  | cons c rest =>
    rcases List.eq_nil_or_concat rest with hr | ⟨mid, d, hmd⟩
    · subst hr
      simp only [isFirstLabel, List.isEmpty_nil, if_true, specFirstLabel]
      constructor
      · intro h; exact Or.inl ⟨c, rfl, h⟩
      · rintro (⟨c', hc, h⟩ | ⟨c', mid, d, hc, _⟩)
        · cases hc; exact h
        · exact absurd (congrArg List.length hc) (by simp)
    · rw [List.concat_eq_append] at hmd
      subst hmd
      have hne : (mid ++ [d]).isEmpty = false := by
        cases mid <;> rfl
      simp only [isFirstLabel, hne, Bool.false_eq_true, if_false,
        List.dropLast_concat, List.getLastD_concat, Bool.and_eq_true,
        List.all_eq_true, decide_eq_true_eq, specFirstLabel]
      constructor
      · rintro ⟨⟨⟨hc, hmid⟩, hlen⟩, hd⟩
        exact Or.inr ⟨c, mid, d, rfl, hc, hd, hlen, hmid⟩
      · rintro (⟨c', hc, _⟩ | ⟨c', mid', d', hc, hc', hd', hlen', hmid'⟩)
        · exact absurd (congrArg List.length hc) (by simp)
        · have hcc : c = c' ∧ mid = mid' ∧ d = d' := by
            rw [List.cons_append] at hc
            injection hc with h1a h1b
            have h2 := List.append_inj' h1b rfl
            exact ⟨h1a, h2.1, by simpa using h2.2⟩
          obtain ⟨rfl, rfl, rfl⟩ := hcc
          exact ⟨⟨⟨hc', hmid'⟩, hlen'⟩, hd'⟩

theorem specFirstLabel_no_dot (l : List Char) (h : specFirstLabel l) :
    '.' ∉ l := by
  rcases h with ⟨c, rfl, hc⟩ | ⟨c, mid, d, rfl, hc, hd, _, hmid⟩
  · intro hm
    rw [List.mem_singleton] at hm
    subst hm
    simp [isAlnum, Char.isAlpha, Char.isDigit, Char.isUpper, Char.isLower] at hc
  · intro hm
    rcases List.mem_cons.mp hm with rfl | hm'
    · simp [isAlnum, Char.isAlpha, Char.isDigit, Char.isUpper, Char.isLower] at hc
    · rcases List.mem_append.mp hm' with hmm | hdd
      · have := hmid _ hmm
        simp [isLabelChar, isAlnum, Char.isAlpha, Char.isDigit,
          Char.isUpper, Char.isLower] at this
      · rw [List.mem_singleton] at hdd
        subst hdd
        simp [isAlnum, Char.isAlpha, Char.isDigit, Char.isUpper,
          Char.isLower] at hd

theorem specTailLabel_no_dot (l : List Char) (h : specTailLabel l) :
    '.' ∉ l := by
  intro hm
  have := h.2 _ hm
  simp [Char.isAlpha, Char.isUpper, Char.isLower] at this

/-- C3 counterexample: the claim's own example, a multi-label domain
whose middle label `sub1` contains a digit, is rejected by
`isValidDomainFormat` (the regex allows digits and hyphens only in the
first label). -/
theorem isValidDomainFormat_rejects_mixed_middle_label :
    isValidDomainFormat "my-host.sub1.example.com" = false := by decide

/-- C3 (amended): `isValidDomainFormat` accepts exactly the strings
consisting of a first label of alphanumerics and hyphens (1–63
characters, not starting or ending with a hyphen) followed by one or
more dot-separated labels each consisting of at least two alphabetic
characters — so digits and hyphens are allowed only in the first label,
and labels after the first have no 63-character cap. -/
theorem isValidDomainFormat_iff (s : String) :
    isValidDomainFormat s = true ↔
    ∃ first rest, s.data = joinChar '.' (first :: rest) ∧
      specFirstLabel first ∧ rest ≠ [] ∧ ∀ l ∈ rest, specTailLabel l := by
  constructor
  · intro h
    unfold isValidDomainFormat at h
    rcases hs : splitOnChar '.' s.data with _ | ⟨first, rest⟩
    · exact absurd hs (splitOnChar_ne_nil _ _)
    rw [hs] at h
    simp only [Bool.and_eq_true, Bool.not_eq_eq_eq_not, Bool.not_true,
      List.all_eq_true] at h
    refine ⟨first, rest, ?_, ?_, ?_, ?_⟩
    · rw [← joinChar_splitOnChar '.' s.data, hs]
    · exact (isFirstLabel_iff first).mp h.1.1
    · intro hrest
      subst hrest
      simp at h
    · intro l hl
      exact (isTailLabel_iff l).mp (h.2 l hl)
  · rintro ⟨first, rest, hdata, hf, hne, ht⟩
    have hsplit : splitOnChar '.' s.data = first :: rest := by
      rw [hdata]
      refine splitOnChar_joinChar '.' (first :: rest) (by simp) ?_
      intro p hp
      rcases List.mem_cons.mp hp with rfl | hp'
      · exact specFirstLabel_no_dot p hf
      · exact specTailLabel_no_dot p (ht p hp')
    unfold isValidDomainFormat
    rw [hsplit]
    cases rest with
    | nil => exact absurd rfl hne
    | cons l ls =>
      simp only [Bool.and_eq_true, List.all_eq_true, List.isEmpty_cons,
        Bool.not_false]
      exact ⟨⟨(isFirstLabel_iff first).mpr hf, trivial⟩,
        fun p hp => (isTailLabel_iff p).mpr (ht p hp)⟩

/-- C3 witness: the characterization applied at a concrete accepted
domain. -/
theorem isValidDomainFormat_iff_witness :
    isValidDomainFormat "my-host.example.com" = true ∧
    (∃ first rest,
      ("my-host.example.com" : String).data = joinChar '.' (first :: rest) ∧
      specFirstLabel first ∧ rest ≠ [] ∧ ∀ l ∈ rest, specTailLabel l) :=
  ⟨by decide, (isValidDomainFormat_iff "my-host.example.com").mp (by decide)⟩

/-- C4 (code bug): when `net.LookupIP` returns a nil error together with
an empty address list, `getIPAddress` takes its `len(ips) == 0` branch
but returns the still-nil `err`, so `ValidateDomain` proceeds and — when
a provider then succeeds — returns a record whose `IPAddress` is the
empty string, violating the invariant that `resolved_address` is a
non-empty address equal to the first resolution result. -/
theorem ValidateDomain_empty_dns_record :
    getIPAddress (Except.ok ([] : List String)) = ("", none) ∧
    ValidateDomain envEmptyDNS "example.com" =
      Except.ok { OriginalInput := "example.com",
                  CleanDomain := "example.com",
                  IPAddress := "", Location := some parisLoc } := by
  constructor
  · rfl
  · decide

/-- C5 (code bug): a successful lookup with an empty result set is not
treated as "not found": `checkDNSResolution` only tests the error, and
`getIPAddress` signals no error either, so `ValidateDomain` does not
fail with its `cannot resolve domain` error (`UnresolvableDomain`) on a
domain whose lookup yields no addresses — it proceeds to the location
stage instead. -/
theorem emptyResultSet_not_unresolvable :
    checkDNSResolution (Except.ok ([] : List String)) = true ∧
    (getIPAddress (Except.ok ([] : List String))).2 = none ∧
    ValidateDomain envEmptyDNS "example.com" ≠
      Except.error "cannot resolve domain" := by
  refine ⟨rfl, rfl, ?_⟩
  decide

/-- C6: each adapter turns a decoded response with both `city` and
`country` empty into a provider error, never a success; consequently
every location a single adapter — or the three-provider orchestrator —
returns successfully has a non-empty city or a non-empty country. -/
theorem adapters_require_city_or_country :
    (∀ (status : Nat) (loc : LocationDetails), loc.City = "" →
      loc.Country = "" →
      getIPAPILocation (.response status (.ok loc)) =
        ⟨none, some noLocationDataMsg⟩) ∧
    (∀ (status : Nat) (loc : LocationDetails), loc.City = "" →
      loc.Country = "" →
      getFreeGeoIPLocation (.response status (.ok loc)) =
        ⟨none, some noLocationDataMsg⟩) ∧
    (∀ (status : Nat) (data : IPInfoData), data.city.getD "" = "" →
      data.country.getD "" = "" →
      getIPInfoLocation (.response status (.ok data)) =
        ⟨none, some noLocationDataMsg⟩) ∧
    (∀ (fetch : HTTPFetch LocationDetails) (r : LocationDetails),
      getIPAPILocation fetch = ⟨some r, none⟩ →
      r.City ≠ "" ∨ r.Country ≠ "") ∧
    (∀ (fetch : HTTPFetch IPInfoData) (r : LocationDetails),
      getIPInfoLocation fetch = ⟨some r, none⟩ →
      r.City ≠ "" ∨ r.Country ≠ "") ∧
    (∀ (fetch : HTTPFetch LocationDetails) (r : LocationDetails),
      getFreeGeoIPLocation fetch = ⟨some r, none⟩ →
      r.City ≠ "" ∨ r.Country ≠ "") ∧
    (∀ (a : HTTPFetch LocationDetails) (b : HTTPFetch IPInfoData)
      (c : HTTPFetch LocationDetails) (r : LocationDetails),
      getIPLocationFull a b c = ⟨some r, none⟩ →
      r.City ≠ "" ∨ r.Country ≠ "") := by
  have hAPI : ∀ (fetch : HTTPFetch LocationDetails) (r : LocationDetails),
      (getIPAPILocation fetch).location = some r →
      r.City ≠ "" ∨ r.Country ≠ "" := by
    intro fetch r h
    rcases fetch with e | e | ⟨status, p | loc⟩ <;>
      simp only [getIPAPILocation] at h
    · cases h
    · cases h
    · cases h
    · by_cases hc : (loc.City = "" && loc.Country = "") = true
      · rw [if_pos hc] at h; cases h
      · rw [if_neg hc] at h
        cases h
        by_cases h1 : r.City = ""
        · exact Or.inr fun h2 => hc (by simp [h1, h2])
        · exact Or.inl h1
  have hInfo : ∀ (fetch : HTTPFetch IPInfoData) (r : LocationDetails),
      (getIPInfoLocation fetch).location = some r →
      r.City ≠ "" ∨ r.Country ≠ "" := by
    intro fetch r h
    rcases fetch with e | e | ⟨status, p | data⟩ <;>
      simp only [getIPInfoLocation] at h
    · cases h
    · cases h
    · cases h
    · by_cases hc : ((data.city.getD "") = "" && (data.country.getD "") = "") = true
      · rw [if_pos hc] at h; cases h
      · rw [if_neg hc] at h
        cases h
        by_cases h1 : data.city.getD "" = ""
        · exact Or.inr fun h2 =>
            hc (by simp [h1, show data.country.getD "" = "" from h2])
        · exact Or.inl h1
  have hGeo : ∀ (fetch : HTTPFetch LocationDetails) (r : LocationDetails),
      (getFreeGeoIPLocation fetch).location = some r →
      r.City ≠ "" ∨ r.Country ≠ "" := by
    intro fetch r h
    rcases fetch with e | e | ⟨status, p | loc⟩ <;>
      simp only [getFreeGeoIPLocation] at h
    · cases h
    · cases h
    · cases h
    · by_cases hc : (loc.City = "" && loc.Country = "") = true
      · rw [if_pos hc] at h; cases h
      · rw [if_neg hc] at h
        cases h
        by_cases h1 : r.City = ""
        · exact Or.inr fun h2 => hc (by simp [h1, h2])
        · exact Or.inl h1
  refine ⟨?_, ?_, ?_,
    fun fetch r h => hAPI fetch r (by rw [h]),
    fun fetch r h => hInfo fetch r (by rw [h]),
    fun fetch r h => hGeo fetch r (by rw [h]), ?_⟩
  · intro status loc h1 h2
    simp [getIPAPILocation, h1, h2]
  · intro status loc h1 h2
    simp [getFreeGeoIPLocation, h1, h2]
  · intro status data h1 h2
    simp [getIPInfoLocation, h1, h2]
  · intro a b c r h
    obtain ⟨q, hq, hql⟩ := getIPLocation_location_mem
      [getIPAPILocation a, getIPInfoLocation b, getFreeGeoIPLocation c] r
      (by rw [show getIPLocation [getIPAPILocation a, getIPInfoLocation b,
        getFreeGeoIPLocation c] = getIPLocationFull a b c from rfl, h])
    simp only [List.mem_cons, List.not_mem_nil, or_false] at hq
    rcases hq with rfl | rfl | rfl
    · exact hAPI a r hql
    · exact hInfo b r hql
    · exact hGeo c r hql

/-- C6 witness: a decoded response with every field empty is turned into
the `no location data` provider error. -/
theorem adapters_require_city_or_country_witness :
    getIPAPILocation (.response 200 (.ok LocationDetails.zero)) =
      ⟨none, some noLocationDataMsg⟩ :=
  adapters_require_city_or_country.1 200 LocationDetails.zero rfl rfl

/-- C7 counterexample: the adapters never read the HTTP status code, so
a non-2xx response whose body decodes to a usable record is returned as
a success, not as a `ProviderError` — here a 500 response carrying the
Paris record. -/
theorem getIPAPILocation_accepts_non2xx :
    getIPAPILocation (.response 500 (.ok parisLoc)) =
      ⟨some parisLoc, none⟩ := by decide

/-- C7 (amended): for every adapter, a transport failure, a body-read
failure and an unparsable body each produce a provider error (nil
location, non-nil error), uniformly; the HTTP status code is never
inspected — the result of a response is independent of its status code,
so a non-2xx response is processed exactly like a 2xx one. -/
theorem adapters_uniform_failure_modes :
    (∀ e, getIPAPILocation (.transportError e) = ⟨none, some e⟩) ∧
    (∀ e, getIPAPILocation (.readError e) = ⟨none, some e⟩) ∧
    (∀ (status : Nat) e,
      getIPAPILocation (.response status (.error e)) = ⟨none, some e⟩) ∧
    (∀ (s s' : Nat) (p : Except String LocationDetails),
      getIPAPILocation (.response s p) = getIPAPILocation (.response s' p)) ∧
    (∀ e, getIPInfoLocation (.transportError e) = ⟨none, some e⟩) ∧
    (∀ e, getIPInfoLocation (.readError e) = ⟨none, some e⟩) ∧
    (∀ (status : Nat) e,
      getIPInfoLocation (.response status (.error e)) = ⟨none, some e⟩) ∧
    (∀ (s s' : Nat) (p : Except String IPInfoData),
      getIPInfoLocation (.response s p) = getIPInfoLocation (.response s' p)) ∧
    (∀ e, getFreeGeoIPLocation (.transportError e) = ⟨none, some e⟩) ∧
    (∀ e, getFreeGeoIPLocation (.readError e) = ⟨none, some e⟩) ∧
    (∀ (status : Nat) e,
      getFreeGeoIPLocation (.response status (.error e)) = ⟨none, some e⟩) ∧
    (∀ (s s' : Nat) (p : Except String LocationDetails),
      getFreeGeoIPLocation (.response s p) =
        getFreeGeoIPLocation (.response s' p)) := by
  refine ⟨fun e => rfl, fun e => rfl, fun st e => rfl, ?_,
    fun e => rfl, fun e => rfl, fun st e => rfl, ?_,
    fun e => rfl, fun e => rfl, fun st e => rfl, ?_⟩ <;>
    (intro s s' p; cases p <;> rfl)

/-- C7 witness: the amended claim applied at a concrete transport
failure. -/
theorem adapters_uniform_failure_modes_witness :
    getIPAPILocation (.transportError "dial tcp: refused") =
      ⟨none, some "dial tcp: refused"⟩ :=
  adapters_uniform_failure_modes.1 "dial tcp: refused"

/-- C8: when the decoded ipinfo.io response carries its coordinates in
one comma-separated `loc` string with exactly two pieces, the adapter's
successful record carries those two pieces scanned as the two
floating-point coordinates; in particular `"48.85"` and `"2.35"` scan to
exactly 48.85 and 2.35. -/
theorem getIPInfoLocation_parses_combined_coordinates (status : Nat)
    (data : IPInfoData) (s : String) (a b : List Char)
    (hloc : data.loc = some s)
    (hsplit : splitOnChar ',' s.data = [a, b]) :
    (∀ r, getIPInfoLocation (.response status (.ok data)) =
        ⟨some r, none⟩ →
      r.Latitude = sscanfFloat (String.mk a) ∧
      r.Longitude = sscanfFloat (String.mk b)) ∧
    sscanfFloat "48.85" = (48.85 : Rat) ∧
    sscanfFloat "2.35" = (2.35 : Rat) := by
  refine ⟨?_, ?_, ?_⟩
  · intro r h
    simp only [getIPInfoLocation, hloc, hsplit] at h
    by_cases hc : ((data.city.getD "") = "" && (data.country.getD "") = "") = true
    · rw [if_pos hc] at h
      cases h
    · rw [if_neg hc] at h
      cases h
      exact ⟨rfl, rfl⟩
  · rw [show sscanfFloat "48.85" = mkRat 4885 100 from by decide,
      Rat.mkRat_eq_div]
    norm_num
  · rw [show sscanfFloat "2.35" = mkRat 235 100 from by decide,
      Rat.mkRat_eq_div]
    norm_num

/-- C8 witness: the coordinate string `"48.85,2.35"` yields exactly
latitude 48.85 and longitude 2.35 in the returned record. -/
theorem getIPInfoLocation_parses_combined_coordinates_witness :
    getIPInfoLocation (.response 200 (.ok ipinfoParisData)) =
      ⟨some ipinfoParisLoc, none⟩ ∧
    ipinfoParisLoc.Latitude = (48.85 : Rat) ∧
    ipinfoParisLoc.Longitude = (2.35 : Rat) := by
  have h := getIPInfoLocation_parses_combined_coordinates 200
    ipinfoParisData "48.85,2.35"
    ['4', '8', '.', '8', '5'] ['2', '.', '3', '5'] rfl (by decide)
  have heq : getIPInfoLocation (.response 200 (.ok ipinfoParisData)) =
      ⟨some ipinfoParisLoc, none⟩ := by decide
  have hr := h.1 ipinfoParisLoc heq
  exact ⟨heq, hr.1.trans h.2.1, hr.2.trans h.2.2⟩

/-- C9: the normalizer trims whitespace only after stripping the literal
`"www."` prefix, so for every input that does not itself start with an
HTTP(S) scheme or with `"www."` (in particular one whose leading
whitespace precedes the `"www."`), the result is just the
whitespace-trimmed input — and if that trimmed input starts with
`"www."`, the normalized result still starts with `"www."`. -/
theorem cleanDomainInput_trims_after_www_strip
    (host : String → Option String) (input : String)
    (h1 : hasPfx input "http://" = false)
    (h2 : hasPfx input "https://" = false)
    (h3 : hasPfx input "www." = false) :
    cleanDomainInput host input = String.mk (trimSpaceList input.data) ∧
    (hasPfx (String.mk (trimSpaceList input.data)) "www." = true →
      hasPfx (cleanDomainInput host input) "www." = true) := by
  have heq : cleanDomainInput host input =
      String.mk (trimSpaceList input.data) := by
    simp [cleanDomainInput, h1, h2, h3]
  exact ⟨heq, fun h => by rw [heq]; exact h⟩

/-- C9 witness: leading whitespace before `"www."` prevents the prefix
strip, and the normalized result still begins with `"www."`. -/
theorem cleanDomainInput_trims_after_www_strip_witness :
    cleanDomainInput (fun _ => none) "  www.example.com" =
      String.mk (trimSpaceList ("  www.example.com" : String).data) ∧
    String.mk (trimSpaceList ("  www.example.com" : String).data) =
      "www.example.com" ∧
    hasPfx (cleanDomainInput (fun _ => none) "  www.example.com")
      "www." = true := by
  have h := cleanDomainInput_trims_after_www_strip (fun _ => none)
    "  www.example.com" rfl rfl rfl
  exact ⟨h.1, by decide, h.2 (by decide)⟩

/-- C10: the orchestrator never yields a nil location together with a
nil error — its result always carries a location or an error — and every
`DomainInfo` that `ValidateDomain` returns successfully has a non-nil
`Location`. -/
theorem getIPLocation_never_both_nil (env : Env) (input : String) :
    ((getIPLocationFull env.ipapiFetch env.ipinfoFetch
        env.freegeoipFetch).location.isSome = true ∨
      (getIPLocationFull env.ipapiFetch env.ipinfoFetch
        env.freegeoipFetch).err.isSome = true) ∧
    (∀ info, ValidateDomain env input = .ok info →
      info.Location.isSome = true) := by
  refine ⟨getIPLocation_some_or_err _, ?_⟩
  intro info h
  unfold ValidateDomain at h
  by_cases hv : (!isValidDomainFormat (cleanDomainInput env.host input)) = true
  · rw [if_pos hv] at h; cases h
  · rw [if_neg hv] at h
    by_cases hd : (!checkDNSResolution env.lookup) = true
    · rw [if_pos hd] at h; cases h
    · rw [if_neg hd] at h
      cases hip : (getIPAddress env.lookup).2 with
      | some e => rw [hip] at h; cases h
      | none =>
        rw [hip] at h
        cases herr : (getIPLocationFull env.ipapiFetch env.ipinfoFetch
            env.freegeoipFetch).err with
        | some e => rw [herr] at h; cases h
        | none =>
          rw [herr] at h
          cases h
          rcases getIPLocation_some_or_err
            [getIPAPILocation env.ipapiFetch,
             getIPInfoLocation env.ipinfoFetch,
             getFreeGeoIPLocation env.freegeoipFetch] with hsome | hes
          · exact hsome
          · rw [show getIPLocation [getIPAPILocation env.ipapiFetch,
              getIPInfoLocation env.ipinfoFetch,
              getFreeGeoIPLocation env.freegeoipFetch] =
                getIPLocationFull env.ipapiFetch env.ipinfoFetch
                  env.freegeoipFetch from rfl, herr] at hes
            cases hes

/-- C10 witness: a successful validation yields a record whose
`Location` may be dereferenced. -/
theorem getIPLocation_never_both_nil_witness :
    ((getIPLocationFull envAllGood.ipapiFetch envAllGood.ipinfoFetch
        envAllGood.freegeoipFetch).location.isSome = true ∨
      (getIPLocationFull envAllGood.ipapiFetch envAllGood.ipinfoFetch
        envAllGood.freegeoipFetch).err.isSome = true) ∧
    ({ OriginalInput := "example.com", CleanDomain := "example.com",
       IPAddress := "93.184.216.34",
       Location := some parisLoc } : DomainInfo).Location.isSome = true :=
  ⟨(getIPLocation_never_both_nil envAllGood "example.com").1,
    (getIPLocation_never_both_nil envAllGood "example.com").2
      { OriginalInput := "example.com", CleanDomain := "example.com",
        IPAddress := "93.184.216.34", Location := some parisLoc }
      (by decide)⟩

end DomainInfoPkg
